import Mathlib

/-
  Verification of the quote-generation service
  (heroku-applink-pattern-org-action-nodejs).

  The development shallow-embeds the pricing engine
  (`src/server/services/pricingEngine.js`, concatenated into
  `src/server/middleware/salesforce.js` in this checkout), the route handler
  and middleware (`salesforce.js`), and the configuration module
  (`src/server/config/index.js`).  The unit-of-work committer lives in the
  vendor SDK `@heroku/salesforce-sdk-nodejs`, which is not part of this
  repository; it is modelled from the spec (section 4.2) and from the SDK
  documentation shipped with the repository (`SalesforceSDK.md`).
-/

namespace OrgAction

deriving instance DecidableEq for Except

/-! ## JavaScript number model

JavaScript numbers are IEEE-754 doubles.  We model them as exact rationals
extended with `nan` and the two infinities: no rounding and no negative
zero, which is faithful for the arithmetic the pricing engine performs. -/

inductive JSNum where
  | nan
  | inf
  | ninf
  | fin (q : ℚ)
deriving DecidableEq

def JSNum.neg : JSNum → JSNum
  | nan => nan
  | inf => ninf
  | ninf => inf
  | fin q => fin (-q)

def JSNum.add : JSNum → JSNum → JSNum
  | nan, _ => nan
  | _, nan => nan
  | inf, ninf => nan
  | ninf, inf => nan
  | inf, _ => inf
  | ninf, _ => ninf
  | fin _, inf => inf
  | fin _, ninf => ninf
  | fin a, fin b => fin (a + b)

def JSNum.sub (a b : JSNum) : JSNum := a.add b.neg

def JSNum.mul : JSNum → JSNum → JSNum
  | nan, _ => nan
  | _, nan => nan
  | inf, inf => inf
  | inf, ninf => ninf
  | ninf, inf => ninf
  | ninf, ninf => inf
  | inf, fin b => if b = 0 then nan else if 0 < b then inf else ninf
  | fin a, inf => if a = 0 then nan else if 0 < a then inf else ninf
  | ninf, fin b => if b = 0 then nan else if 0 < b then ninf else inf
  | fin a, ninf => if a = 0 then nan else if 0 < a then ninf else inf
  | fin a, fin b => fin (a * b)

def JSNum.div : JSNum → JSNum → JSNum
  | nan, _ => nan
  | _, nan => nan
  | inf, inf => nan
  | inf, ninf => nan
  | ninf, inf => nan
  | ninf, ninf => nan
  | inf, fin b => if 0 ≤ b then inf else ninf
  | ninf, fin b => if 0 ≤ b then ninf else inf
  | fin _, inf => fin 0
  | fin _, ninf => fin 0
  | fin a, fin b =>
      if b = 0 then (if a = 0 then nan else if 0 < a then inf else ninf)
      else fin (a / b)

def JSNum.isFinite : JSNum → Bool
  | fin _ => true
  | _ => false

/-! ## parseFloat

Models JavaScript `parseFloat` on decimal numerals: optional leading
spaces, optional sign, integer digits, optional fractional digits, and any
trailing garbage is ignored (as `parseFloat` does).  Exponent notation and
the literal `Infinity` are outside the modelled subset; no claim depends
on them. -/

def charDigit (c : Char) : ℕ := c.toNat - 48

def digitsVal (cs : List Char) : ℕ :=
  List.foldl (fun acc c => 10 * acc + charDigit c) 0 cs

def fracVal (cs : List Char) : ℚ :=
  (digitsVal cs : ℚ) / ((10 : ℚ) ^ cs.length)

def parseFloat (s : String) : JSNum :=
  let cs := s.data.dropWhile (fun c => c == ' ')
  let neg : Bool := match cs with
    | '-' :: _ => true
    | _ => false
  let cs1 := match cs with
    | '-' :: rest => rest
    | '+' :: rest => rest
    | _ => cs
  let intDigits := cs1.takeWhile Char.isDigit
  let rest1 := cs1.dropWhile Char.isDigit
  let fracDigits := match rest1 with
    | '.' :: r => r.takeWhile Char.isDigit
    | _ => []
  if intDigits = [] ∧ fracDigits = [] then JSNum.nan
  else
    let mag : ℚ := (digitsVal intDigits : ℚ) + fracVal fracDigits
    JSNum.fin (if neg then -mag else mag)

/-- JavaScript `parseFloat` applied to a possibly-absent record field:
`parseFloat(undefined)` is `NaN`. -/
def parseFloatOpt : Option String → JSNum
  | none => JSNum.nan
  | some s => parseFloat s

/-- JavaScript truthiness of a possibly-absent string field:
`undefined` and the empty string are falsy, every other string is truthy. -/
def jsTruthy : Option String → Bool
  | none => false
  | some s => !(s == "")

/-! ## Field values and pending references

Spec section 9 asks that the duck-typed field maps exchanged with the
backing store be represented as a tagged union of scalar kinds plus a
reference placeholder; `undef` stands for a JavaScript `undefined` field
value. -/

inductive FieldValue where
  | str (s : String)
  | num (n : JSNum)
  | boolean (b : Bool)
  | ref (token : ℕ)
  | undef
deriving DecidableEq

abbrev Fields := List (String × FieldValue)

/-- A pending reference returned by `registerCreate`: an opaque token
unique within its batch plus the declared record-type tag (spec section 3).
The token models the JavaScript object identity that keys the result map
(spec section 9). -/
structure PendingRef where
  token : ℕ
  type : String
deriving DecidableEq

/-- `ReferenceId.toApiString()`: embeds a pending reference inside another
operation's field map, distinguishable from a literal identifier so the
committer can substitute it (spec section 4.1). -/
def PendingRef.toApiString (r : PendingRef) : FieldValue := FieldValue.ref r.token

inductive OpKind where
  | create
  | update
  | delete
deriving DecidableEq

structure Operation where
  kind : OpKind
  type : String
  fields : Fields
deriving DecidableEq

/-! ## Unit of Work (registration side)

Modelled from the spec: the batch is an ordered sequence of operations in
registration order (spec section 3, "Batch"); `registerCreate` is the SDK
call used at `pricingEngine.js` lines 214 and 236. -/

structure UnitOfWork where
  ops : List (PendingRef × Operation)
  nextToken : ℕ
deriving DecidableEq

def newUnitOfWork : UnitOfWork := ⟨[], 0⟩

def UnitOfWork.registerCreate (u : UnitOfWork) (type : String) (fields : Fields) :
    PendingRef × UnitOfWork :=
  let r : PendingRef := ⟨u.nextToken, type⟩
  (r, ⟨u.ops ++ [(r, ⟨OpKind.create, type, fields⟩)], u.nextToken + 1⟩)

/-! ## Unit of Work committer

Modelled from the spec: the commit flow of spec section 4.2 — validate the
batch (non-empty and below the operation-count ceiling) without any network
call, send one request, then walk the structured response in registration
order re-associating each result with its originating handle, treating any
absent handle as a hard protocol error.  The ceiling 10000 is the
Salesforce DML limit quoted in `SalesforceSDK.md`. -/

inductive StoreReply where
  /-- The store executed the transaction; `res` assigns a persisted
  identifier to each operation token it accounts for. -/
  | structured (res : List (ℕ × String))
  /-- The store executed the transaction and reported failure
  (spec section 7, `BackingStoreError`); per `SalesforceSDK.md` the SDK
  surfaces this by throwing from `commitUnitOfWork`. -/
  | rejected (msg : String)
  /-- Network failure (spec section 7, `TransportError`). -/
  | transport (msg : String)
deriving DecidableEq

inductive CommitErr where
  | batchTooLarge
  | salesforceError (msg : String)
  | transportError (msg : String)
  | protocolError (msg : String)
deriving DecidableEq

def CommitErr.message : CommitErr → String
  | batchTooLarge => "Too many operations in single transaction"
  | salesforceError msg => msg
  | transportError msg => msg
  | protocolError msg => msg

/-- Spec section 7: `BatchTooLargeError` is a local `ValidationError`. -/
def CommitErr.isValidationError : CommitErr → Bool
  | batchTooLarge => true
  | _ => false

structure OpResult where
  success : Bool
  id : String
  errors : List String
deriving DecidableEq

def maxOperations : ℕ := 10000

def lookupToken : List (ℕ × String) → ℕ → Option String
  | [], _ => none
  | (t, i) :: rest, t' => if t = t' then some i else lookupToken rest t'

/-- Walk the store's structured response in registration order,
re-associating each result with its originating handle; a handle absent
from the response is a hard protocol error (spec section 4.2 step 4). -/
def associateResults (res : List (ℕ × String)) :
    List (PendingRef × Operation) → Except CommitErr (List (PendingRef × OpResult))
  | [] => Except.ok []
  | (r, _) :: rest =>
    match lookupToken res r.token with
    | none => Except.error (CommitErr.protocolError
        ("Missing result for reference " ++ toString r.token))
    | some i =>
      match associateResults res rest with
      | Except.error e => Except.error e
      | Except.ok m => Except.ok ((r, ⟨true, i, []⟩) :: m)

/-- Modelled from the spec: `dataApi.commitUnitOfWork` (spec section 4.2).
The returned Boolean records whether the network was consulted — step 1
must fail fast on an empty or oversize batch without any network call. -/
def commitUnitOfWork (reply : StoreReply) (u : UnitOfWork) :
    Except CommitErr (List (PendingRef × OpResult)) × Bool :=
  if u.ops.length = 0 ∨ maxOperations < u.ops.length then
    (Except.error CommitErr.batchTooLarge, false)
  else
    match reply with
    | StoreReply.transport m => (Except.error (CommitErr.transportError m), true)
    | StoreReply.rejected m => (Except.error (CommitErr.salesforceError m), true)
    | StoreReply.structured res => (associateResults res u.ops, true)

/-- Server-side reference substitution (spec section 4.2 step 2): the
store replaces every embedded pending reference with the identifier it
assigned to the referenced operation. -/
def resolveFieldValue (res : List (ℕ × String)) : FieldValue → FieldValue
  | FieldValue.ref t =>
    match lookupToken res t with
    | some i => FieldValue.str i
    | none => FieldValue.ref t
  | v => v

/-- The records as persisted by the store after a structured response:
each operation's record type together with its fields after server-side
reference substitution. -/
def committedRecords (res : List (ℕ × String)) (u : UnitOfWork) :
    List (String × Fields) :=
  u.ops.map (fun p => (p.2.type, p.2.fields.map (fun kv => (kv.1, resolveFieldValue res kv.2))))

/-- `results.get(ref)` on the commit result map (`pricingEngine.js`
line 251); the map is keyed by reference identity, modelled by the token
(spec section 9). -/
def resultsGet : List (PendingRef × OpResult) → PendingRef → Option OpResult
  | [], _ => none
  | (r, v) :: rest, r' => if r = r' then some v else resultsGet rest r'

/-! ## Configuration (`src/server/config/index.js`) -/

structure FeaturesConfig where
  enableDiscountOverrides : Bool
deriving DecidableEq

structure Config where
  features : FeaturesConfig
deriving DecidableEq

/-- `config.enableDiscountOverrides` as read at `pricingEngine.js`
line 229.  The config object exported by `src/server/config/index.js` has
no top-level `enableDiscountOverrides` property (the flag lives at
`config.features.enableDiscountOverrides`), so this JavaScript property
access evaluates to `undefined`, which is falsy. -/
def Config.enableDiscountOverridesTop (_ : Config) : Bool := false

/-! ## Pricing engine (`src/server/services/pricingEngine.js`) -/

/-- The region-based discount table (lines 166-170). -/
def discounts : List (String × ℚ) :=
  [("US", 1/10), ("EU", 15/100), ("APAC", 12/100)]

/-- JavaScript `x || d` on a possibly-absent number: yields `d` when `x`
is `undefined` or falsy (the number 0). -/
def jsNumberOr (v : Option ℚ) (dflt : ℚ) : ℚ :=
  match v with
  | some q => if q = 0 then dflt else q
  | none => dflt

/-- `getDiscountForRegion` (lines 177-179): `discounts[region] || 0.0`. -/
def getDiscountForRegion (region : String) : ℚ :=
  jsNumberOr (discounts.lookup region) 0

/-- `const discountRate = getDiscountForRegion('US')` (line 208) — the
region argument is hardcoded. -/
def discountRateUS : ℚ := getDiscountForRegion "US"

/-- A record returned by the line-item query: fields keyed by name, with
raw string values as fed to `parseFloat` by the pricing loop. -/
structure QueryRecord where
  fields : List (String × String)
deriving DecidableEq

def recordField (r : QueryRecord) (k : String) : Option String :=
  r.fields.lookup k

/-- The field list selected by the query (lines 191-194): the base fields,
plus `DiscountOverride__c` when `config.features.enableDiscountOverrides`
is set. -/
def queriedFields (cfg : Config) : List String :=
  ["Id", "Product2Id", "Quantity", "UnitPrice", "PricebookEntryId"] ++
    (if cfg.features.enableDiscountOverrides then ["DiscountOverride__c"] else [])

def fieldValueOfOpt : Option String → FieldValue
  | some s => FieldValue.str s
  | none => FieldValue.undef

/-- The body of the `forEach` loop over query records (lines 223-244):
computes the effective discount rate and registers one `QuoteLineItem`
whose fields embed the quote's pending reference via `toApiString`.
Note the override branch tests `config.enableDiscountOverrides`
(`Config.enableDiscountOverridesTop`), not the feature flag read at
line 192. -/
def lineItemFields (cfg : Config) (quoteRef : PendingRef) (record : QueryRecord) : Fields :=
  let quantity := parseFloatOpt (recordField record "Quantity")
  let unitPrice := parseFloatOpt (recordField record "UnitPrice")
  let effectiveDiscountRate :=
    if cfg.enableDiscountOverridesTop && jsTruthy (recordField record "DiscountOverride__c") then
      (parseFloatOpt (recordField record "DiscountOverride__c")).div (JSNum.fin 100)
    else
      JSNum.fin discountRateUS
  let discountedPrice := (quantity.mul unitPrice).mul ((JSNum.fin 1).sub effectiveDiscountRate)
  [("QuoteId", quoteRef.toApiString),
   ("PricebookEntryId", fieldValueOfOpt (recordField record "PricebookEntryId")),
   ("Quantity", FieldValue.num quantity),
   ("UnitPrice", FieldValue.num (discountedPrice.div quantity))]

def quoteFields (opportunityId : String) : Fields :=
  [("Name", FieldValue.str "New Quote"),
   ("OpportunityId", FieldValue.str opportunityId)]

/-- Lines 211-245: create the unit of work, register the `Quote` create,
then register one `QuoteLineItem` create per queried record.  Returns the
populated batch together with the quote's pending reference. -/
def buildQuoteBatch (cfg : Config) (opportunityId : String)
    (records : List QueryRecord) : UnitOfWork × PendingRef :=
  let reg := newUnitOfWork.registerCreate "Quote" (quoteFields opportunityId)
  let quoteRef := reg.1
  let u2 := records.foldl
    (fun u r => (u.registerCreate "QuoteLineItem" (lineItemFields cfg quoteRef r)).2) reg.2
  (u2, quoteRef)

/-- A JavaScript `Error` object as thrown by the service: optional
`statusCode` plus `message`. -/
structure ErrObj where
  statusCode : Option ℕ
  message : String
deriving DecidableEq

structure QuoteResponse where
  quoteId : String
deriving DecidableEq

/-- Instrumentation of the store interactions `generateQuote` performs:
whether a unit of work was created and whether commit was invoked. -/
structure GTrace where
  uowCreated : Bool
  commitCalled : Bool
deriving DecidableEq

/-- The backing store as seen by one request: the records the line-item
query returns, and the store's reply to the one commit request. -/
structure Org where
  queryRecords : List QueryRecord
  commitReply : StoreReply
deriving DecidableEq

/-- `generateQuote` (lines 188-271).  The query is modelled by
`org.queryRecords`; zero records raise the 404 before any batch exists
(lines 201-205); a commit failure is wrapped with status 400 and the
commit error's message (lines 256-261); a missing quote result inside the
inner `try` is caught by the same `catch` and wrapped identically
(lines 251-254).  All thrown errors in these paths carry a `statusCode`,
so the outer 500 wrapper (lines 262-270) never fires in the modelled
paths. -/
def generateQuote (cfg : Config) (opportunityId : String) (org : Org) :
    Except ErrObj QuoteResponse × GTrace :=
  if org.queryRecords.length = 0 then
    (Except.error ⟨some 404,
      "No OpportunityLineItems found for Opportunity ID: " ++ opportunityId⟩,
     ⟨false, false⟩)
  else
    let built := buildQuoteBatch cfg opportunityId org.queryRecords
    match (commitUnitOfWork org.commitReply built.1).1 with
    | Except.ok results =>
      match resultsGet results built.2 with
      | some quoteResult => (Except.ok ⟨quoteResult.id⟩, ⟨true, true⟩)
      | none =>
        (Except.error ⟨some 400,
          "Failed to create quote: Quote creation result not found in response"⟩,
         ⟨true, true⟩)
    | Except.error commitError =>
      (Except.error ⟨some 400, "Failed to create quote: " ++ commitError.message⟩,
       ⟨true, true⟩)

/-! ## Route handler and middleware (`salesforce.js`, `api.js`) -/

inductive HandlerReply where
  /-- HTTP 200 with the quote-generation response body. -/
  | success (body : QuoteResponse)
  /-- `reply.code(status).send(..error: flag, message..)`. -/
  | failure (status : ℕ) (error : Bool) (message : String)
deriving DecidableEq

/-- The `/generatequote` handler (lines 134-158): a missing salesforce
client yields 401; an error thrown by `generateQuote` is sent with
`error.statusCode || 500` and its message. -/
def routeHandler (hasSalesforce : Bool) (result : Except ErrObj QuoteResponse) :
    HandlerReply :=
  if !hasSalesforce then
    HandlerReply.failure 401 true "Salesforce client not initialized"
  else
    match result with
    | Except.ok r => HandlerReply.success r
    | Except.error e => HandlerReply.failure (e.statusCode.getD 500) true e.message

/-- The fixed message of the middleware's credential-failure error
(`salesforce.js` lines 25-27). -/
def initErrorMessage : String := "Failed to initialize Salesforce client"

/-- One request through the middleware and the route handler: `parsed` is
the outcome of `sdk.salesforce.parseRequest` on the `x-client-context`
credential bundle (`salesforce.js` lines 14-28); on failure the
middleware's 401 error is sent before the handler body runs, so no store
interaction happens. -/
def processRequest (parsed : Option Org) (cfg : Config) (opportunityId : String) :
    HandlerReply × GTrace :=
  match parsed with
  | none => (HandlerReply.failure 401 true initErrorMessage, ⟨false, false⟩)
  | some org =>
    let r := generateQuote cfg opportunityId org
    (routeHandler true r.1, r.2)

end OrgAction

namespace OrgAction

/-! ## Characterization of the batch built by `generateQuote` -/

/-- The line-item operations registered by the `forEach` loop, starting at
token `t`: one `QuoteLineItem` create per record, in query order. -/
def lineOpsFrom (cfg : Config) (quoteRef : PendingRef) :
    ℕ → List QueryRecord → List (PendingRef × Operation)
  | _, [] => []
  | t, r :: rs =>
    (⟨t, "QuoteLineItem"⟩, ⟨OpKind.create, "QuoteLineItem", lineItemFields cfg quoteRef r⟩)
      :: lineOpsFrom cfg quoteRef (t + 1) rs

lemma foldl_registerLineItems (cfg : Config) (quoteRef : PendingRef) :
    ∀ (records : List QueryRecord) (u : UnitOfWork),
      (records.foldl (fun u r =>
          (u.registerCreate "QuoteLineItem" (lineItemFields cfg quoteRef r)).2) u)
        = ⟨u.ops ++ lineOpsFrom cfg quoteRef u.nextToken records,
           u.nextToken + records.length⟩ := by
  intro records
  induction records with
  | nil => intro u; simp [lineOpsFrom]
  | cons r rs ih =>
    intro u
    rw [List.foldl_cons, ih]
    simp [UnitOfWork.registerCreate, lineOpsFrom, List.append_assoc]
    omega

lemma buildQuoteBatch_eq (cfg : Config) (oppId : String) (records : List QueryRecord) :
    buildQuoteBatch cfg oppId records
      = (⟨(⟨0, "Quote"⟩, ⟨OpKind.create, "Quote", quoteFields oppId⟩)
            :: lineOpsFrom cfg ⟨0, "Quote"⟩ 1 records,
          1 + records.length⟩,
         ⟨0, "Quote"⟩) := by
  simp only [buildQuoteBatch]
  rw [foldl_registerLineItems]
  simp [newUnitOfWork, UnitOfWork.registerCreate]

lemma lineOpsFrom_length (cfg : Config) (quoteRef : PendingRef) :
    ∀ (t : ℕ) (records : List QueryRecord),
      (lineOpsFrom cfg quoteRef t records).length = records.length := by
  intro t records
  induction records generalizing t with
  | nil => rfl
  | cons r rs ih => simp [lineOpsFrom, ih]

lemma lineOpsFrom_mem (cfg : Config) (quoteRef : PendingRef) :
    ∀ (t : ℕ) (records : List QueryRecord) (p : PendingRef × Operation),
      p ∈ lineOpsFrom cfg quoteRef t records →
      p.1.type = "QuoteLineItem" ∧ p.2.type = "QuoteLineItem" ∧ t ≤ p.1.token ∧
      ∃ r ∈ records, p.2.fields = lineItemFields cfg quoteRef r := by
  intro t records
  induction records generalizing t with
  | nil => intro p hp; cases hp
  | cons r rs ih =>
    intro p hp
    rcases List.mem_cons.mp hp with hph | hpt
    · subst hph
      exact ⟨rfl, rfl, le_refl t, r, List.mem_cons_self _ _, rfl⟩
    · obtain ⟨h1, h2, h3, r', hr', h4⟩ := ih (t + 1) p hpt
      exact ⟨h1, h2, by omega, r', List.mem_cons_of_mem _ hr', h4⟩

lemma lineOpsFrom_keys_nodup (cfg : Config) (quoteRef : PendingRef) :
    ∀ (t : ℕ) (records : List QueryRecord),
      ((lineOpsFrom cfg quoteRef t records).map Prod.fst).Nodup := by
  intro t records
  induction records generalizing t with
  | nil => simp [lineOpsFrom]
  | cons r rs ih =>
    simp only [lineOpsFrom, List.map_cons, List.nodup_cons]
    refine ⟨?_, ih (t + 1)⟩
    intro hmem
    obtain ⟨p, hp, hfst⟩ := List.mem_map.mp hmem
    have := (lineOpsFrom_mem cfg quoteRef (t + 1) rs p hp).2.2.1
    rw [hfst] at this
    simp at this

lemma lineItemFields_head (cfg : Config) (quoteRef : PendingRef) (r : QueryRecord) :
    ∃ rest, lineItemFields cfg quoteRef r
      = ("QuoteId", FieldValue.ref quoteRef.token) :: rest :=
  ⟨_, rfl⟩

/-! ## Lemmas about the committer model -/

lemma lookupToken_mem :
    ∀ (res : List (ℕ × String)) (t : ℕ) (i : String),
      lookupToken res t = some i → (t, i) ∈ res := by
  intro res
  induction res with
  | nil => intro t i h; cases h
  | cons hd tl ih =>
    intro t i h
    obtain ⟨a, s⟩ := hd
    by_cases ha : a = t
    · subst ha
      simp [lookupToken] at h
      simp [h]
    · simp [lookupToken, ha] at h
      exact List.mem_cons_of_mem _ (ih _ _ h)

lemma associateResults_ok_of (res : List (ℕ × String)) :
    ∀ ops : List (PendingRef × Operation),
      (∀ p ∈ ops, (lookupToken res p.1.token).isSome = true) →
      associateResults res ops = Except.ok (ops.map fun p =>
        (p.1, ⟨true, (lookupToken res p.1.token).getD "", []⟩)) := by
  intro ops
  induction ops with
  | nil => intro _; rfl
  | cons hd tl ih =>
    intro hall
    obtain ⟨r, op⟩ := hd
    have hhd := hall (r, op) (List.mem_cons_self _ _)
    cases hlk : lookupToken res r.token with
    | none => rw [hlk] at hhd; simp at hhd
    | some i =>
      have htl := ih (fun p hp => hall p (List.mem_cons_of_mem _ hp))
      simp [associateResults, hlk, htl]

lemma associateResults_ok_sound (res : List (ℕ × String)) :
    ∀ (ops : List (PendingRef × Operation)) (m : List (PendingRef × OpResult)),
      associateResults res ops = Except.ok m →
      (∀ p ∈ ops, (lookupToken res p.1.token).isSome = true) ∧
      m = ops.map fun p => (p.1, ⟨true, (lookupToken res p.1.token).getD "", []⟩) := by
  intro ops
  induction ops with
  | nil =>
    intro m h
    simp [associateResults] at h
    simp [← h]
  | cons hd tl ih =>
    intro m h
    obtain ⟨r, op⟩ := hd
    cases hlk : lookupToken res r.token with
    | none => simp [associateResults, hlk] at h
    | some i =>
      cases htl : associateResults res tl with
      | error e => simp [associateResults, hlk, htl] at h
      | ok m' =>
        simp [associateResults, hlk, htl] at h
        obtain ⟨hall, hm⟩ := ih m' htl
        constructor
        · intro p hp
          rcases List.mem_cons.mp hp with hph | hpt
          · subst hph; simp [hlk]
          · exact hall p hpt
        · rw [← h]
          simp [hlk, hm]

lemma associateResults_missing (res : List (ℕ × String)) :
    ∀ ops : List (PendingRef × Operation),
      (∃ p ∈ ops, lookupToken res p.1.token = none) →
      ∃ msg, associateResults res ops = Except.error (CommitErr.protocolError msg) := by
  intro ops
  induction ops with
  | nil => rintro ⟨p, hp, _⟩; cases hp
  | cons hd tl ih =>
    rintro ⟨p, hp, hnone⟩
    obtain ⟨r, op⟩ := hd
    cases hlk : lookupToken res r.token with
    | none =>
      exact ⟨"Missing result for reference " ++ toString r.token,
        by simp [associateResults, hlk]⟩
    | some i =>
      rcases List.mem_cons.mp hp with hph | hpt
      · subst hph; rw [hlk] at hnone; cases hnone
      · obtain ⟨msg, hmsg⟩ := ih ⟨p, hpt, hnone⟩
        exact ⟨msg, by simp [associateResults, hlk, hmsg]⟩

lemma commitUnitOfWork_passes (reply : StoreReply) (u : UnitOfWork)
    (h0 : u.ops.length ≠ 0) (hmax : u.ops.length ≤ maxOperations) :
    commitUnitOfWork reply u
      = (match reply with
         | StoreReply.transport m => (Except.error (CommitErr.transportError m), true)
         | StoreReply.rejected m => (Except.error (CommitErr.salesforceError m), true)
         | StoreReply.structured res => (associateResults res u.ops, true)) := by
  have hcond : ¬ (u.ops.length = 0 ∨ maxOperations < u.ops.length) := by
    push_neg
    exact ⟨h0, hmax⟩
  unfold commitUnitOfWork
  rw [if_neg hcond]


lemma associateResults_ok_keys (res : List (ℕ × String)) :
    ∀ (ops : List (PendingRef × Operation)) (m : List (PendingRef × OpResult)),
      associateResults res ops = Except.ok m →
      m.map Prod.fst = ops.map Prod.fst := by
  intro ops
  induction ops with
  | nil =>
    intro m h
    simp [associateResults] at h
    simp [← h]
  | cons hd tl ih =>
    intro m h
    obtain ⟨r, op⟩ := hd
    cases hlk : lookupToken res r.token with
    | none => simp [associateResults, hlk] at h
    | some i =>
      cases htl : associateResults res tl with
      | error e => simp [associateResults, hlk, htl] at h
      | ok mm =>
        simp [associateResults, hlk, htl] at h
        rw [← h]
        simp [ih mm htl]

/-! ## Handle counting (for the exactly-one-entry invariant) -/

def countHandle : List PendingRef → PendingRef → ℕ
  | [], _ => 0
  | k :: ks, r => (if k = r then 1 else 0) + countHandle ks r

lemma countHandle_eq_zero :
    ∀ (ks : List PendingRef) (r : PendingRef), r ∉ ks → countHandle ks r = 0 := by
  intro ks
  induction ks with
  | nil => intro r _; rfl
  | cons k ks ih =>
    intro r hr
    have hk : ¬ k = r := fun h => hr (h ▸ List.mem_cons_self _ _)
    have hr' : r ∉ ks := fun h => hr (List.mem_cons_of_mem _ h)
    simp [countHandle, hk, ih r hr']

lemma countHandle_eq_one :
    ∀ (ks : List PendingRef) (r : PendingRef), ks.Nodup → r ∈ ks →
      countHandle ks r = 1 := by
  intro ks
  induction ks with
  | nil => intro r _ hr; cases hr
  | cons k ks ih =>
    intro r hnd hr
    rcases List.mem_cons.mp hr with hrk | hrt
    · subst hrk
      have : r ∉ ks := (List.nodup_cons.mp hnd).1
      simp [countHandle, countHandle_eq_zero ks r this]
    · have hk : ¬ k = r := by
        intro h
        exact absurd (h ▸ hrt) (List.nodup_cons.mp hnd).1
      simp [countHandle, hk, ih r (List.nodup_cons.mp hnd).2 hrt]

end OrgAction

namespace OrgAction

/-! ## Claim theorems -/

/-- C3: For every opportunity identifier whose line-item query returns zero
records, `generateQuote` raises a 404-class error whose message contains
that opportunity identifier, and no batch is constructed: the unit of work
is never created and no commit call is made. -/
theorem emptyQuery_404_no_batch (cfg : Config) (oppId : String) (org : Org)
    (h : org.queryRecords = []) :
    ∃ e, generateQuote cfg oppId org = (Except.error e, ⟨false, false⟩) ∧
      e.statusCode = some 404 ∧
      e.message = "No OpportunityLineItems found for Opportunity ID: " ++ oppId ∧
      ∃ pre, e.message = pre ++ oppId := by
  refine ⟨⟨some 404, "No OpportunityLineItems found for Opportunity ID: " ++ oppId⟩,
    ?_, rfl, rfl, "No OpportunityLineItems found for Opportunity ID: ", rfl⟩
  simp [generateQuote, h]

theorem emptyQuery_404_no_batch_witness :
    (Org.queryRecords ⟨[], StoreReply.structured []⟩ = []) ∧
    (∃ e, generateQuote ⟨⟨false⟩⟩ "006am000006pS6P" ⟨[], StoreReply.structured []⟩
        = (Except.error e, ⟨false, false⟩) ∧
      e.statusCode = some 404 ∧
      e.message = "No OpportunityLineItems found for Opportunity ID: " ++ "006am000006pS6P" ∧
      ∃ pre, e.message = pre ++ "006am000006pS6P") :=
  ⟨rfl, emptyQuery_404_no_batch ⟨⟨false⟩⟩ "006am000006pS6P" ⟨[], StoreReply.structured []⟩ rfl⟩

/-- C5: For every batch, commit first validates that the batch is non-empty
and below the operation-count ceiling, and on violation fails fast with
`BatchTooLargeError` — a local `ValidationError` — before any network call
is made (the returned flag records that the store was never consulted). -/
theorem commit_validates_before_network (u : UnitOfWork) (reply : StoreReply)
    (h : u.ops.length = 0 ∨ maxOperations < u.ops.length) :
    commitUnitOfWork reply u = (Except.error CommitErr.batchTooLarge, false) ∧
    CommitErr.batchTooLarge.isValidationError = true := by
  constructor
  · unfold commitUnitOfWork
    rw [if_pos h]
  · rfl

theorem commit_validates_before_network_witness :
    ((newUnitOfWork.ops.length = 0 ∨ maxOperations < newUnitOfWork.ops.length) ∧
     (commitUnitOfWork (StoreReply.transport "timeout") newUnitOfWork
        = (Except.error CommitErr.batchTooLarge, false) ∧
      CommitErr.batchTooLarge.isValidationError = true)) :=
  ⟨Or.inl rfl,
   commit_validates_before_network newUnitOfWork (StoreReply.transport "timeout") (Or.inl rfl)⟩

/-- C6: the claim says an enabled per-line-item `DiscountOverride__c` value
replaces the regional rate, but the code never applies it: with the feature
flag enabled and an override of 50 on a record with quantity 2 and unit
price 100, the registered line item carries a per-unit price of 90 (the
regional 10% rate), not the 50 the override would give, because line 229
reads `config.enableDiscountOverrides` — an absent property, hence
`undefined`/falsy — instead of `config.features.enableDiscountOverrides`. -/
theorem discountOverride_ignored_by_code :
    Config.enableDiscountOverridesTop ⟨⟨true⟩⟩ = false ∧
    Config.features ⟨⟨true⟩⟩ = ⟨true⟩ ∧
    jsTruthy (recordField ⟨[("Id", "00k1"), ("Quantity", "2"), ("UnitPrice", "100"),
        ("PricebookEntryId", "01u1"), ("DiscountOverride__c", "50")]⟩
      "DiscountOverride__c") = true ∧
    (lineItemFields ⟨⟨true⟩⟩ ⟨0, "Quote"⟩
        ⟨[("Id", "00k1"), ("Quantity", "2"), ("UnitPrice", "100"),
          ("PricebookEntryId", "01u1"), ("DiscountOverride__c", "50")]⟩).lookup "UnitPrice"
      = some (FieldValue.num (JSNum.fin 90)) ∧
    (90 : ℚ) ≠ 100 * (1 - 50 / 100) := by
  refine ⟨rfl, rfl, rfl, by with_unfolding_all decide, by norm_num⟩

/-- C8: For every request whose credential bundle fails to parse, the
response is 401 with a fixed human-readable message that does not depend
on — and cannot contain — the raw credential payload. -/
theorem missingCredentials_401_fixed_message
    (decodeCtx : Option String → Option Org) (hdr : Option String)
    (cfg : Config) (oppId : String)
    (hfail : decodeCtx hdr = none) :
    (processRequest (decodeCtx hdr) cfg oppId).1
      = HandlerReply.failure 401 true initErrorMessage ∧
    ∀ raw : String, hdr = some raw → initErrorMessage.length < raw.length →
      ¬ ∃ pre post, initErrorMessage = pre ++ raw ++ post := by
  constructor
  · rw [hfail]; rfl
  · rintro raw - hlen ⟨pre, post, hEq⟩
    have : initErrorMessage.length = pre.length + (raw.length + post.length) := by
      rw [hEq, String.length_append, String.length_append]
      ring
    omega

theorem missingCredentials_401_fixed_message_witness :
    ((fun _ : Option String => (none : Option Org))
        (some "eyJhbGciOiJIUzI1NiJ9.opaque-credential-bundle-payload") = none) ∧
    ((processRequest ((fun _ : Option String => (none : Option Org))
          (some "eyJhbGciOiJIUzI1NiJ9.opaque-credential-bundle-payload")) ⟨⟨false⟩⟩ "006x").1
        = HandlerReply.failure 401 true initErrorMessage ∧
     ∀ raw : String,
       (some "eyJhbGciOiJIUzI1NiJ9.opaque-credential-bundle-payload" : Option String)
          = some raw →
       initErrorMessage.length < raw.length →
       ¬ ∃ pre post, initErrorMessage = pre ++ raw ++ post) :=
  ⟨rfl, missingCredentials_401_fixed_message (fun _ => none)
    (some "eyJhbGciOiJIUzI1NiJ9.opaque-credential-bundle-payload") ⟨⟨false⟩⟩ "006x" rfl⟩

/-- C9: the baseline discount rate used by `generateQuote` is exactly 0.10:
the region argument is hardcoded to US, `getDiscountForRegion` maps US to
0.10, and it returns 0.0 exactly for region codes absent from the discount
table (US, EU, APAC). -/
theorem baseline_discount_is_ten_percent :
    discountRateUS = 1 / 10 ∧
    getDiscountForRegion "US" = 1 / 10 ∧
    ∀ region : String, getDiscountForRegion region = 0 ↔
      (region ≠ "US" ∧ region ≠ "EU" ∧ region ≠ "APAC") := by
  refine ⟨by with_unfolding_all decide, by with_unfolding_all decide, ?_⟩
  intro region
  by_cases h1 : region = "US"
  · subst h1
    constructor
    · intro h; exact absurd h (by with_unfolding_all decide)
    · rintro ⟨h, -, -⟩; exact absurd rfl h
  · by_cases h2 : region = "EU"
    · subst h2
      constructor
      · intro h; exact absurd h (by with_unfolding_all decide)
      · rintro ⟨-, h, -⟩; exact absurd rfl h
    · by_cases h3 : region = "APAC"
      · subst h3
        constructor
        · intro h; exact absurd h (by with_unfolding_all decide)
        · rintro ⟨-, -, h⟩; exact absurd rfl h
      · have b1 : (region == "US") = false := by simp [h1]
        have b2 : (region == "EU") = false := by simp [h2]
        have b3 : (region == "APAC") = false := by simp [h3]
        simp [getDiscountForRegion, discounts, jsNumberOr, List.lookup, b1, b2, b3,
          h1, h2, h3]

/-- C10: the per-unit price computation divides by the record's `Quantity`
with no guard: for a queried record whose `Quantity` is "0", a
`QuoteLineItem` is registered whose `UnitPrice` is `NaN` (not a finite
number), and `generateQuote` proceeds to commit and returns success with
no error raised. -/
theorem division_by_zero_quantity_unguarded :
    ((buildQuoteBatch ⟨⟨false⟩⟩ "006x"
        [⟨[("Quantity", "0"), ("UnitPrice", "100"), ("PricebookEntryId", "01u")]⟩]).1.ops.map
      (fun p => (p.1, p.2.type, p.2.fields.lookup "UnitPrice")))
      = [(⟨0, "Quote"⟩, "Quote", none),
         (⟨1, "QuoteLineItem"⟩, "QuoteLineItem", some (FieldValue.num JSNum.nan))] ∧
    JSNum.nan.isFinite = false ∧
    generateQuote ⟨⟨false⟩⟩ "006x"
        ⟨[⟨[("Quantity", "0"), ("UnitPrice", "100"), ("PricebookEntryId", "01u")]⟩],
         StoreReply.structured [(0, "0Q0"), (1, "0QL")]⟩
      = (Except.ok ⟨"0Q0"⟩, ⟨true, true⟩) := by
  refine ⟨by with_unfolding_all decide, rfl, by with_unfolding_all decide⟩

/-- C4: Whenever the backing store rejects an operation of the committed
batch, the commit error is wrapped with statusCode 400 and a message
containing the store-reported reason, and the route handler replies with
that status and an error body carrying the message. -/
theorem storeRejection_maps_to_400 (cfg : Config) (oppId : String)
    (records : List QueryRecord) (msg : String)
    (hne : records ≠ [])
    (hlen : records.length + 1 ≤ maxOperations) :
    ∃ e, (generateQuote cfg oppId ⟨records, StoreReply.rejected msg⟩).1 = Except.error e ∧
      e.statusCode = some 400 ∧
      e.message = "Failed to create quote: " ++ msg ∧
      routeHandler true (generateQuote cfg oppId ⟨records, StoreReply.rejected msg⟩).1
        = HandlerReply.failure 400 true ("Failed to create quote: " ++ msg) := by
  have hlen0 : records.length ≠ 0 := by
    intro h
    exact hne (List.length_eq_zero.mp h)
  have hops : (buildQuoteBatch cfg oppId records).1.ops.length = records.length + 1 := by
    rw [buildQuoteBatch_eq]
    simp [lineOpsFrom_length]
  have hcommit : commitUnitOfWork (StoreReply.rejected msg) (buildQuoteBatch cfg oppId records).1
      = (Except.error (CommitErr.salesforceError msg), true) := by
    rw [commitUnitOfWork_passes _ _ (by rw [hops]; omega) (by rw [hops]; exact hlen)]
  have hg : (generateQuote cfg oppId ⟨records, StoreReply.rejected msg⟩).1
      = Except.error ⟨some 400, "Failed to create quote: " ++ msg⟩ := by
    simp [generateQuote, hlen0, hcommit, CommitErr.message]
  refine ⟨⟨some 400, "Failed to create quote: " ++ msg⟩, hg, rfl, rfl, ?_⟩
  rw [hg]
  rfl

theorem storeRejection_maps_to_400_witness :
    (([⟨[("Quantity", "1"), ("UnitPrice", "10"), ("PricebookEntryId", "p1")]⟩]
        : List QueryRecord) ≠ [] ∧
     ([⟨[("Quantity", "1"), ("UnitPrice", "10"), ("PricebookEntryId", "p1")]⟩]
        : List QueryRecord).length + 1 ≤ maxOperations) ∧
    (∃ e, (generateQuote ⟨⟨false⟩⟩ "006am000006pS6P"
        ⟨[⟨[("Quantity", "1"), ("UnitPrice", "10"), ("PricebookEntryId", "p1")]⟩],
         StoreReply.rejected "FIELD_CUSTOM_VALIDATION_EXCEPTION: no access"⟩).1
        = Except.error e ∧
      e.statusCode = some 400 ∧
      e.message = "Failed to create quote: "
          ++ "FIELD_CUSTOM_VALIDATION_EXCEPTION: no access" ∧
      routeHandler true (generateQuote ⟨⟨false⟩⟩ "006am000006pS6P"
          ⟨[⟨[("Quantity", "1"), ("UnitPrice", "10"), ("PricebookEntryId", "p1")]⟩],
           StoreReply.rejected "FIELD_CUSTOM_VALIDATION_EXCEPTION: no access"⟩).1
        = HandlerReply.failure 400 true ("Failed to create quote: "
            ++ "FIELD_CUSTOM_VALIDATION_EXCEPTION: no access")) :=
  ⟨⟨by decide, by decide⟩,
   storeRejection_maps_to_400 ⟨⟨false⟩⟩ "006am000006pS6P"
     [⟨[("Quantity", "1"), ("UnitPrice", "10"), ("PricebookEntryId", "p1")]⟩]
     "FIELD_CUSTOM_VALIDATION_EXCEPTION: no access" (by decide) (by decide)⟩

/-- C7: For every request with a valid opportunity identifier — credentials
parse to a client, matching line items exist, and the commit succeeds with
a result for every handle — the response is a 200 success whose body's
quoteId is the identifier the backing store assigned to the newly created
Quote (the entry for token 0, the quote's pending reference). -/
theorem validRequest_200_with_store_id
    (cfg : Config) (oppId : String) (org : Org) (res : List (ℕ × String)) (qid : String)
    (hne : org.queryRecords ≠ [])
    (hlen : org.queryRecords.length + 1 ≤ maxOperations)
    (hreply : org.commitReply = StoreReply.structured res)
    (hcover : ∀ p ∈ (buildQuoteBatch cfg oppId org.queryRecords).1.ops,
        (lookupToken res p.1.token).isSome = true)
    (hq : lookupToken res 0 = some qid) :
    (processRequest (some org) cfg oppId).1 = HandlerReply.success ⟨qid⟩ := by
  have hlen0 : org.queryRecords.length ≠ 0 := by
    intro h
    exact hne (List.length_eq_zero.mp h)
  have hops : (buildQuoteBatch cfg oppId org.queryRecords).1.ops.length
      = org.queryRecords.length + 1 := by
    rw [buildQuoteBatch_eq]
    simp [lineOpsFrom_length]
  have hassoc := associateResults_ok_of res _ hcover
  have hcommit : commitUnitOfWork (StoreReply.structured res)
      (buildQuoteBatch cfg oppId org.queryRecords).1
      = (Except.ok ((buildQuoteBatch cfg oppId org.queryRecords).1.ops.map fun p =>
          (p.1, ⟨true, (lookupToken res p.1.token).getD "", []⟩)), true) := by
    rw [commitUnitOfWork_passes _ _ (by rw [hops]; omega) (by rw [hops]; exact hlen)]
    show (associateResults res (buildQuoteBatch cfg oppId org.queryRecords).1.ops, true) = _
    rw [hassoc]
  have hget : resultsGet ((buildQuoteBatch cfg oppId org.queryRecords).1.ops.map fun p =>
        (p.1, (⟨true, (lookupToken res p.1.token).getD "", []⟩ : OpResult)))
      (buildQuoteBatch cfg oppId org.queryRecords).2 = some ⟨true, qid, []⟩ := by
    rw [buildQuoteBatch_eq]
    simp [resultsGet, hq]
  simp [processRequest, generateQuote, routeHandler, hlen0, hreply, hcommit, hget]

theorem validRequest_200_with_store_id_witness :
    (Org.queryRecords ⟨[⟨[("Quantity", "1"), ("UnitPrice", "10"), ("PricebookEntryId", "p1")]⟩],
        StoreReply.structured [(0, "0Q0am000000nRLd"), (1, "a1")]⟩ ≠ [] ∧
      (Org.queryRecords ⟨[⟨[("Quantity", "1"), ("UnitPrice", "10"), ("PricebookEntryId", "p1")]⟩],
        StoreReply.structured [(0, "0Q0am000000nRLd"), (1, "a1")]⟩).length + 1 ≤ maxOperations ∧
      Org.commitReply ⟨[⟨[("Quantity", "1"), ("UnitPrice", "10"), ("PricebookEntryId", "p1")]⟩],
          StoreReply.structured [(0, "0Q0am000000nRLd"), (1, "a1")]⟩
        = StoreReply.structured [(0, "0Q0am000000nRLd"), (1, "a1")] ∧
      (∀ p ∈ (buildQuoteBatch ⟨⟨false⟩⟩ "006am000006pS6P"
          (Org.queryRecords ⟨[⟨[("Quantity", "1"), ("UnitPrice", "10"), ("PricebookEntryId", "p1")]⟩],
            StoreReply.structured [(0, "0Q0am000000nRLd"), (1, "a1")]⟩)).1.ops,
        (lookupToken [(0, "0Q0am000000nRLd"), (1, "a1")] p.1.token).isSome = true) ∧
      lookupToken [(0, "0Q0am000000nRLd"), (1, "a1")] 0 = some "0Q0am000000nRLd") ∧
    (processRequest (some ⟨[⟨[("Quantity", "1"), ("UnitPrice", "10"), ("PricebookEntryId", "p1")]⟩],
        StoreReply.structured [(0, "0Q0am000000nRLd"), (1, "a1")]⟩) ⟨⟨false⟩⟩ "006am000006pS6P").1
      = HandlerReply.success ⟨"0Q0am000000nRLd"⟩ :=
  ⟨⟨by decide, by decide, rfl, by decide, rfl⟩,
   validRequest_200_with_store_id ⟨⟨false⟩⟩ "006am000006pS6P"
     ⟨[⟨[("Quantity", "1"), ("UnitPrice", "10"), ("PricebookEntryId", "p1")]⟩],
      StoreReply.structured [(0, "0Q0am000000nRLd"), (1, "a1")]⟩
     [(0, "0Q0am000000nRLd"), (1, "a1")] "0Q0am000000nRLd"
     (by decide) (by decide) rfl (by decide) rfl⟩

/-- C1: For every batch built by `generateQuote` — one Quote create and one
QuoteLineItem create per queried record, each line item embedding the
Quote's pending reference via `toApiString` — a successful commit returns a
result mapping with exactly N+1 entries whose keys are exactly the handles
returned by `register`; the Quote entry's id is a non-empty string (the
store-assigned identifiers being non-empty), and each committed line item's
QuoteId field equals the Quote's resolved id. -/
theorem quoteBatch_commit_result_complete
    (cfg : Config) (oppId : String) (records : List QueryRecord)
    (res : List (ℕ × String)) (m : List (PendingRef × OpResult))
    (hcommit : (commitUnitOfWork (StoreReply.structured res)
        (buildQuoteBatch cfg oppId records).1).1 = Except.ok m)
    (hids : ∀ p ∈ res, p.2 ≠ "") :
    m.length = records.length + 1 ∧
    m.map Prod.fst = (buildQuoteBatch cfg oppId records).1.ops.map Prod.fst ∧
    (∀ p ∈ (buildQuoteBatch cfg oppId records).1.ops, p.2.type = "QuoteLineItem" →
      p.2.fields.lookup "QuoteId"
        = some ((buildQuoteBatch cfg oppId records).2.toApiString)) ∧
    ∃ q, resultsGet m (buildQuoteBatch cfg oppId records).2 = some q ∧
      q.success = true ∧ q.id ≠ "" ∧
      ∀ rec ∈ committedRecords res (buildQuoteBatch cfg oppId records).1,
        rec.1 = "QuoteLineItem" →
          rec.2.lookup "QuoteId" = some (FieldValue.str q.id) := by
  have hB := buildQuoteBatch_eq cfg oppId records
  have hassoc : associateResults res (buildQuoteBatch cfg oppId records).1.ops
      = Except.ok m := by
    by_cases hval : (buildQuoteBatch cfg oppId records).1.ops.length = 0 ∨
        maxOperations < (buildQuoteBatch cfg oppId records).1.ops.length
    · unfold commitUnitOfWork at hcommit
      rw [if_pos hval] at hcommit
      simp at hcommit
    · push_neg at hval
      have hred := commitUnitOfWork_passes (StoreReply.structured res)
        (buildQuoteBatch cfg oppId records).1 hval.1 hval.2
      rw [hred] at hcommit
      exact hcommit
  obtain ⟨hall, hm⟩ := associateResults_ok_sound res _ m hassoc
  have hkeys := associateResults_ok_keys res _ m hassoc
  have hhead : (lookupToken res (0 : ℕ)).isSome = true :=
    hall (⟨0, "Quote"⟩, ⟨OpKind.create, "Quote", quoteFields oppId⟩)
      (by rw [hB]; exact List.mem_cons_self _ _)
  obtain ⟨qid, hqid⟩ := Option.isSome_iff_exists.mp hhead
  refine ⟨?_, hkeys, ?_, ⟨true, qid, []⟩, ?_, rfl, ?_, ?_⟩
  · have hlm : m.length = (buildQuoteBatch cfg oppId records).1.ops.length := by
      calc m.length = (m.map Prod.fst).length := (List.length_map _ _).symm
        _ = ((buildQuoteBatch cfg oppId records).1.ops.map Prod.fst).length := by rw [hkeys]
        _ = _ := List.length_map _ _
    rw [hlm, hB]
    simp [lineOpsFrom_length]
  · intro p hp htype
    rw [hB] at hp
    rcases List.mem_cons.mp hp with hph | hpt
    · subst hph
      exact absurd htype (by simp)
    · obtain ⟨-, -, -, r, -, hfields⟩ := lineOpsFrom_mem cfg ⟨0, "Quote"⟩ 1 records p hpt
      obtain ⟨rest, hrest⟩ := lineItemFields_head cfg ⟨0, "Quote"⟩ r
      rw [hB, hfields, hrest]
      simp [List.lookup, PendingRef.toApiString]
  · rw [hm, hB]
    simp [resultsGet, hqid]
  · exact hids (0, qid) (lookupToken_mem res 0 qid hqid)
  · intro rec hrec htype
    rw [hB] at hrec
    unfold committedRecords at hrec
    obtain ⟨p, hp, hgp⟩ := List.mem_map.mp hrec
    rcases List.mem_cons.mp hp with hph | hpt
    · subst hph
      rw [← hgp] at htype
      simp at htype
    · obtain ⟨-, -, -, r, -, hfields⟩ := lineOpsFrom_mem cfg ⟨0, "Quote"⟩ 1 records p hpt
      obtain ⟨rest, hrest⟩ := lineItemFields_head cfg ⟨0, "Quote"⟩ r
      rw [← hgp]
      simp only [hfields, hrest, List.map_cons]
      simp [List.lookup, resolveFieldValue, hqid]

theorem quoteBatch_commit_result_complete_witness :
    ((commitUnitOfWork
        (StoreReply.structured [(0, "0Q0A"), (1, "a1")])
        (buildQuoteBatch ⟨⟨false⟩⟩ "006x"
          [⟨[("Quantity", "2"), ("UnitPrice", "100"), ("PricebookEntryId", "p1")]⟩]).1).1
      = Except.ok [(⟨0, "Quote"⟩, ⟨true, "0Q0A", []⟩),
          (⟨1, "QuoteLineItem"⟩, ⟨true, "a1", []⟩)] ∧
     ∀ p ∈ [((0 : ℕ), "0Q0A"), (1, "a1")], p.2 ≠ "") ∧
    ([((⟨0, "Quote"⟩ : PendingRef), (⟨true, "0Q0A", []⟩ : OpResult)),
        (⟨1, "QuoteLineItem"⟩, ⟨true, "a1", []⟩)].length
      = ([⟨[("Quantity", "2"), ("UnitPrice", "100"), ("PricebookEntryId", "p1")]⟩]
          : List QueryRecord).length + 1 ∧
     [((⟨0, "Quote"⟩ : PendingRef), (⟨true, "0Q0A", []⟩ : OpResult)),
        (⟨1, "QuoteLineItem"⟩, ⟨true, "a1", []⟩)].map Prod.fst
      = (buildQuoteBatch ⟨⟨false⟩⟩ "006x"
          [⟨[("Quantity", "2"), ("UnitPrice", "100"), ("PricebookEntryId", "p1")]⟩]).1.ops.map
          Prod.fst ∧
     (∀ p ∈ (buildQuoteBatch ⟨⟨false⟩⟩ "006x"
          [⟨[("Quantity", "2"), ("UnitPrice", "100"), ("PricebookEntryId", "p1")]⟩]).1.ops,
        p.2.type = "QuoteLineItem" →
        p.2.fields.lookup "QuoteId"
          = some ((buildQuoteBatch ⟨⟨false⟩⟩ "006x"
              [⟨[("Quantity", "2"), ("UnitPrice", "100"),
                ("PricebookEntryId", "p1")]⟩]).2.toApiString)) ∧
     ∃ q, resultsGet [((⟨0, "Quote"⟩ : PendingRef), (⟨true, "0Q0A", []⟩ : OpResult)),
          (⟨1, "QuoteLineItem"⟩, ⟨true, "a1", []⟩)]
        (buildQuoteBatch ⟨⟨false⟩⟩ "006x"
          [⟨[("Quantity", "2"), ("UnitPrice", "100"), ("PricebookEntryId", "p1")]⟩]).2
        = some q ∧
      q.success = true ∧ q.id ≠ "" ∧
      ∀ rec ∈ committedRecords [(0, "0Q0A"), (1, "a1")]
          (buildQuoteBatch ⟨⟨false⟩⟩ "006x"
            [⟨[("Quantity", "2"), ("UnitPrice", "100"), ("PricebookEntryId", "p1")]⟩]).1,
        rec.1 = "QuoteLineItem" →
          rec.2.lookup "QuoteId" = some (FieldValue.str q.id)) :=
  ⟨⟨by decide, by decide⟩,
   quoteBatch_commit_result_complete ⟨⟨false⟩⟩ "006x"
     [⟨[("Quantity", "2"), ("UnitPrice", "100"), ("PricebookEntryId", "p1")]⟩]
     [(0, "0Q0A"), (1, "a1")]
     [(⟨0, "Quote"⟩, ⟨true, "0Q0A", []⟩), (⟨1, "QuoteLineItem"⟩, ⟨true, "a1", []⟩)]
     (by decide) (by decide)⟩

/-- C2: After commit returns, every operation registered in the batch has
exactly one entry in the result mapping; any registered handle absent from
the backing store's response is treated as a hard protocol error — for
every registered handle, absence of its result causes the committer to
raise an error and the caller to surface an error rather than return
success. -/
theorem commit_accounts_for_every_handle
    (cfg : Config) (oppId : String) (records : List QueryRecord)
    (res : List (ℕ × String))
    (hlen : records.length + 1 ≤ maxOperations) :
    (∀ m, (commitUnitOfWork (StoreReply.structured res)
        (buildQuoteBatch cfg oppId records).1).1 = Except.ok m →
      ∀ k ∈ (buildQuoteBatch cfg oppId records).1.ops.map Prod.fst,
        countHandle (m.map Prod.fst) k = 1) ∧
    ((∃ p ∈ (buildQuoteBatch cfg oppId records).1.ops,
        lookupToken res p.1.token = none) →
      (∃ msg, (commitUnitOfWork (StoreReply.structured res)
          (buildQuoteBatch cfg oppId records).1).1
        = Except.error (CommitErr.protocolError msg)) ∧
      ∃ e, (generateQuote cfg oppId ⟨records, StoreReply.structured res⟩).1
        = Except.error e) := by
  have hB := buildQuoteBatch_eq cfg oppId records
  have hops : (buildQuoteBatch cfg oppId records).1.ops.length = records.length + 1 := by
    rw [hB]
    simp [lineOpsFrom_length]
  have h0 : (buildQuoteBatch cfg oppId records).1.ops.length ≠ 0 := by
    rw [hops]
    omega
  have hmax : (buildQuoteBatch cfg oppId records).1.ops.length ≤ maxOperations := by
    rw [hops]
    exact hlen
  have hpass := commitUnitOfWork_passes (StoreReply.structured res)
      (buildQuoteBatch cfg oppId records).1 h0 hmax
  have hnodup : ((buildQuoteBatch cfg oppId records).1.ops.map Prod.fst).Nodup := by
    rw [hB]
    simp only [List.map_cons, List.nodup_cons]
    refine ⟨?_, lineOpsFrom_keys_nodup cfg ⟨0, "Quote"⟩ 1 records⟩
    intro hmem
    obtain ⟨p, hp, hfst⟩ := List.mem_map.mp hmem
    have := (lineOpsFrom_mem cfg ⟨0, "Quote"⟩ 1 records p hp).2.2.1
    rw [hfst] at this
    simp at this
  constructor
  · intro m hok k hk
    have hassoc : associateResults res (buildQuoteBatch cfg oppId records).1.ops
        = Except.ok m := by
      rw [hpass] at hok
      exact hok
    rw [associateResults_ok_keys res _ m hassoc]
    exact countHandle_eq_one _ k hnodup hk
  · intro hmiss
    obtain ⟨msg, hmsg⟩ := associateResults_missing res _ hmiss
    have hcommit : (commitUnitOfWork (StoreReply.structured res)
        (buildQuoteBatch cfg oppId records).1).1
        = Except.error (CommitErr.protocolError msg) := by
      rw [hpass]
      show (associateResults res (buildQuoteBatch cfg oppId records).1.ops, true).1
        = Except.error (CommitErr.protocolError msg)
      rw [hmsg]
    refine ⟨⟨msg, hcommit⟩, ?_⟩
    by_cases hrec : records.length = 0
    · exact ⟨⟨some 404, "No OpportunityLineItems found for Opportunity ID: " ++ oppId⟩,
        by simp [generateQuote, hrec]⟩
    · exact ⟨⟨some 400, "Failed to create quote: " ++ msg⟩,
        by simp [generateQuote, hrec, hcommit, CommitErr.message]⟩

theorem commit_accounts_for_every_handle_witness :
    (([⟨[("Quantity", "2"), ("UnitPrice", "100"), ("PricebookEntryId", "p1")]⟩]
        : List QueryRecord).length + 1 ≤ maxOperations) ∧
    ((∀ m, (commitUnitOfWork (StoreReply.structured [])
        (buildQuoteBatch ⟨⟨false⟩⟩ "006x"
          [⟨[("Quantity", "2"), ("UnitPrice", "100"), ("PricebookEntryId", "p1")]⟩]).1).1
          = Except.ok m →
      ∀ k ∈ (buildQuoteBatch ⟨⟨false⟩⟩ "006x"
          [⟨[("Quantity", "2"), ("UnitPrice", "100"),
            ("PricebookEntryId", "p1")]⟩]).1.ops.map Prod.fst,
        countHandle (m.map Prod.fst) k = 1) ∧
    ((∃ p ∈ (buildQuoteBatch ⟨⟨false⟩⟩ "006x"
          [⟨[("Quantity", "2"), ("UnitPrice", "100"), ("PricebookEntryId", "p1")]⟩]).1.ops,
        lookupToken [] p.1.token = none) →
      (∃ msg, (commitUnitOfWork (StoreReply.structured [])
          (buildQuoteBatch ⟨⟨false⟩⟩ "006x"
            [⟨[("Quantity", "2"), ("UnitPrice", "100"), ("PricebookEntryId", "p1")]⟩]).1).1
        = Except.error (CommitErr.protocolError msg)) ∧
      ∃ e, (generateQuote ⟨⟨false⟩⟩ "006x"
          ⟨[⟨[("Quantity", "2"), ("UnitPrice", "100"), ("PricebookEntryId", "p1")]⟩],
           StoreReply.structured []⟩).1
        = Except.error e)) :=
  ⟨by decide,
   commit_accounts_for_every_handle ⟨⟨false⟩⟩ "006x"
     [⟨[("Quantity", "2"), ("UnitPrice", "100"), ("PricebookEntryId", "p1")]⟩]
     [] (by decide)⟩

end OrgAction
